import Mathlib

set_option maxRecDepth 8192

/-!
Verification of the Worldchain DeFi bot's retrieval core and cache manager.

Shallow embedding of the JavaScript/TypeScript sources
`packages/core/src/simple-rag.ts`, `packages/core/src/protocol-comparer.js`,
`data-manager.js` and the local fallback dataset of `railway-deploy.js`.
Strings are Lean `String`s, JS numbers reaching the scorer are `ℚ`,
JS objects keyed by strings are association lists in insertion order,
and `Option` stands for possibly-`null`/`undefined` values.
-/

namespace WDB

open scoped List

/-- Whitespace recognized by the JS `\s` class and `trim` (ASCII control
whitespace plus NBSP and BOM; other Unicode spaces are not modelled since the
corpus and queries are ASCII). -/
def jsIsWs (c : Char) : Bool :=
  c = ' ' || c = '\t' || c = '\n' || c = '\r' || c = '\x0b' || c = '\x0c' ||
  c = '\u00A0' || c = '\uFEFF'

/-- ASCII case folding, the effect of JS `toLowerCase` on the modelled data. -/
def jsToLowerChar (c : Char) : Char :=
  if 'A' ≤ c ∧ c ≤ 'Z' then Char.ofNat (c.toNat + 32) else c

/-- JS `String.prototype.toLowerCase`. -/
def jsToLower (s : String) : String :=
  String.mk (s.data.map jsToLowerChar)

def jsTrimList (cs : List Char) : List Char :=
  ((cs.dropWhile jsIsWs).reverse.dropWhile jsIsWs).reverse

/-- JS `String.prototype.trim`. -/
def jsTrim (s : String) : String :=
  String.mk (jsTrimList s.data)

/-- Substring occurrence test: does `sub` occur contiguously in `s`? -/
def hasInfix (s sub : List Char) : Bool :=
  if sub.isPrefixOf s then true
  else
    match s with
    | [] => false
    | _ :: t => hasInfix t sub

/-- JS `String.prototype.includes`: substring containment. -/
def strIncludes (s sub : String) : Bool :=
  hasInfix s.data sub.data

/-- JS `str.split(/\s+/)`: each maximal whitespace run is one separator, so a
whitespace character opens a new token exactly when it is the last character
or the next one is not whitespace; a leading (resp. trailing) separator
contributes an empty first (resp. last) token, and the empty string yields
`[""]`. -/
def splitWs : List Char → List (List Char)
  | [] => [[]]
  | c :: cs =>
    let r := splitWs cs
    if jsIsWs c then
      match cs with
      | c' :: _ => if jsIsWs c' then r else [] :: r
      | [] => [] :: r
    else
      match r with
      | t :: ts => (c :: t) :: ts
      | [] => [[c]]

/-- JS `str.split(sep)` for a single-character separator. -/
def splitChar (sep : Char) : List Char → List Char → List (List Char)
  | [], cur => [cur.reverse]
  | c :: cs, cur =>
    if c = sep then cur.reverse :: splitChar sep cs []
    else splitChar sep cs (c :: cur)

/-- JS `Array.prototype.join(sep)`. -/
def joinSep (sep : String) : List String → String
  | [] => ""
  | [x] => x
  | x :: y :: xs => x ++ sep ++ joinSep sep (y :: xs)

/-- `Array.from(new Set(l))`: deduplication keeping first occurrences. -/
def jsUnique (l : List String) : List String :=
  l.foldl (fun acc x => if x ∈ acc then acc else acc ++ [x]) []

/-- Retrieval unit of the RAG corpus (`DocumentChunk` in `types.ts`). -/
structure DocumentChunk where
  content : String
  source : String
  protocol : Option String := none
  category : Option String := none
  score : Option ℚ := none
deriving DecidableEq

/-- The lower-cased whitespace-split word list of a query
(`query.toLowerCase().split(/\s+/)` in `calculateRelevance`). -/
def queryWordsOf (query : String) : List (List Char) :=
  splitWs (jsToLower query).data

/-- `SimpleRAG.calculateRelevance`: count the query words of length > 2
occurring in the lower-cased content, divided by the query word count. -/
def calculateRelevance (query content : String) : ℚ :=
  let queryWords := queryWordsOf query
  let contentLower := (jsToLower content).data
  let matchCount : Nat :=
    queryWords.foldl (fun n w => if decide (w.length > 2) && hasInfix contentLower w then n + 1 else n) 0
  (matchCount : ℚ) / (queryWords.length : ℚ)

/-- The scoring formula as the specification words it: (number of
whitespace-separated query terms of length > 2 occurring as a substring of the
lower-cased content) divided by (total number of query terms). Stated
independently of `calculateRelevance` for comparison. -/
def specScoreFormula (query content : String) : ℚ :=
  let terms := queryWordsOf query
  ((terms.filter fun w =>
      decide (w.length > 2) && hasInfix (jsToLower content).data w).length : ℚ) /
    (terms.length : ℚ)

/-! ### Protocol comparer (`protocol-comparer.js`) -/

/-- The names the comparer knows: `protocol` fields that are truthy and not
`'Worldchain'`, deduplicated keeping first occurrences (`new Set`). -/
def knownProtocolNames (docs : List DocumentChunk) : List String :=
  jsUnique (docs.filterMap fun d =>
    match d.protocol with
    | some p => if p ≠ "" ∧ p ≠ "Worldchain" then some p else none
    | none => none)

/-- `extractProtocolsForComparison`: known names mentioned in the query. -/
def extractProtocolsForComparison (query : String) (docs : List DocumentChunk) : List String :=
  (knownProtocolNames docs).filter fun n => strIncludes (jsToLower query) (jsToLower n)

def comparisonKeywords : List String :=
  ["compare", "comparison", "versus", "vs", "vs.", "difference",
   "better", "worse", "best", "worst", "between", "which"]

def hasComparisonKeyword (query : String) : Bool :=
  comparisonKeywords.any fun k => strIncludes (jsToLower query) k

/-- `isComparisonQuery`: a comparison keyword plus at least two known names. -/
def isComparisonQuery (query : String) (docs : List DocumentChunk) : Bool :=
  hasComparisonKeyword query && decide (2 ≤ (extractProtocolsForComparison query docs).length)

def isNumChar (c : Char) : Bool := c.isDigit || c = ',' || c = '.'

def isKMB (c : Char) : Bool :=
  c = 'K' || c = 'M' || c = 'B' || c = 'k' || c = 'm' || c = 'b'

/-- Matches `[:\s]+\$(\d[\d,.]+[KMB]?)` at the head of `cs`, returning the
capture group. Greedy runs need no backtracking because the character classes
of adjacent pattern pieces are disjoint. -/
def tvlCaptureAt (cs : List Char) : Option (List Char) :=
  let sepOk := fun c => c = ':' || jsIsWs c
  if (cs.takeWhile sepOk).isEmpty then none
  else
    match cs.dropWhile sepOk with
    | '$' :: d :: rest =>
      if d.isDigit then
        let run := rest.takeWhile isNumChar
        if run.isEmpty then none
        else
          match rest.dropWhile isNumChar with
          | c :: _ => if isKMB c then some (d :: (run ++ [c])) else some (d :: run)
          | [] => some (d :: run)
      else none
    | _ => none

/-- First position (leftmost, as a JS regex search) where `f` matches. -/
def scanFirst (f : List Char → Option (List Char)) : List Char → Option (List Char)
  | [] => none
  | c :: cs =>
    match f (c :: cs) with
    | some r => some r
    | none => scanFirst f cs

def matchTvlAt (cs : List Char) : Option (List Char) :=
  if "tvl".data.isPrefixOf cs then tvlCaptureAt (cs.drop 3) else none

def matchTvlLongAt (cs : List Char) : Option (List Char) :=
  if "total value locked".data.isPrefixOf cs then tvlCaptureAt (cs.drop 18) else none

/-- The TVL capture tried against one document: first match of
`/tvl[:\s]+\$(\d[\d,.]+[KMB]?)/i`, else of
`/total value locked[:\s]+\$(\d[\d,.]+[KMB]?)/i`, over the lower-cased
content. -/
def tvlDocExtract (d : DocumentChunk) : Option (List Char) :=
  let content := (jsToLower d.content).data
  (scanFirst matchTvlAt content).orElse fun _ => scanFirst matchTvlLongAt content

/-- `extractTVL`: first per-document TVL capture, else `'Unknown'`. -/
def extractTVL (docs : List DocumentChunk) : String :=
  match docs.findSome? tvlDocExtract with
  | some cap => String.mk cap
  | none => "Unknown"

/-- The capture class of the metric pattern. In the source's template
literal both `\s` and `\d` collapse to the plain letters `s` and `d`, so
the built `RegExp`'s class `[$\d,.]` is literally `[$d,.]`: dollar, the
letter `d`, comma or dot — digits are not matched. -/
def isMetricCapChar (c : Char) : Bool := c = '$' || c = 'd' || c = ',' || c = '.'

def isKMBPct (c : Char) : Bool := isKMB c || c = '%'

/-- Matches `[:s]+([$d,.]+[KMB%]?)` at the head of `cs` — the pattern the
source's template literal actually builds, with `\s` and `\d` collapsed to
the letters `s` and `d` (see `isMetricCapChar`). -/
def metricCaptureAt (cs : List Char) : Option (List Char) :=
  let sepOk := fun c => c = ':' || c = 's'
  if (cs.takeWhile sepOk).isEmpty then none
  else
    let rest := cs.dropWhile sepOk
    let run := rest.takeWhile isMetricCapChar
    if run.isEmpty then none
    else
      match rest.dropWhile isMetricCapChar with
      | c :: _ => if isKMBPct c then some (run ++ [c]) else some run
      | [] => some run

def metricMatchAt (name : List Char) (cs : List Char) : Option (List Char) :=
  if name.isPrefixOf cs then metricCaptureAt (cs.drop name.length) else none

/-- The metric capture tried against one document: each metric name's pattern
`` `${name.toLowerCase()}[:\s]+([$\d,.]+[KMB%]?)` `` (as actually built, see
`isMetricCapChar`) against the lower-cased content. -/
def metricDocExtract (metricNames : List String) (d : DocumentChunk) : Option (List Char) :=
  let content := (jsToLower d.content).data
  metricNames.findSome? fun name => scanFirst (metricMatchAt (jsToLower name).data) content

/-- `extractMetric`: first per-document metric capture, else `'N/A'`. -/
def extractMetric (docs : List DocumentChunk) (metricNames : List String) : String :=
  match docs.findSome? (metricDocExtract metricNames) with
  | some cap => String.mk cap
  | none => "N/A"

/-- `getProtocolCategory`: first truthy `category`, else `'Unknown'`. -/
def getProtocolCategory (docs : List DocumentChunk) : String :=
  match docs.findSome? (fun d =>
      match d.category with
      | some c => if c ≠ "" then some c else none
      | none => none) with
  | some c => c
  | none => "Unknown"

def descLine (line : List Char) : Bool :=
  hasInfix line "is a".data || hasInfix line "protocol on Worldchain".data

/-- `getProtocolDescription`: first content line containing `'is a'` or
`'protocol on Worldchain'`, else a placeholder. -/
def getProtocolDescription (docs : List DocumentChunk) : String :=
  match docs.findSome? (fun d => ((splitChar '\n' d.content.data []).find? descLine).map String.mk) with
  | some l => l
  | none => "No description available"

structure ComparisonData where
  name : String
  category : String
  tvl : String
  dailyChange : String
  revenue : String
  userCount : String
  description : String

/-- The line array built by `generateComparisonText`. -/
def comparisonLines (protocols : List String) (data : String → ComparisonData) : List String :=
  ["# Comparison: " ++ joinSep " vs. " protocols, "", "## Overview", ""]
  ++ protocols.map (fun p => "**" ++ (data p).name ++ "**: " ++ (data p).description)
  ++ ["", "## Key Metrics", "",
      "| Metric | " ++ joinSep " | " (protocols.map fun p => "**" ++ p ++ "**") ++ " |",
      "| ------ | " ++ joinSep " | " (protocols.map fun _ => "-------") ++ " |",
      "| Category | " ++ joinSep " | " (protocols.map fun p => (data p).category) ++ " |",
      "| TVL | " ++ joinSep " | " (protocols.map fun p => (data p).tvl) ++ " |",
      "| 24h Change | " ++ joinSep " | " (protocols.map fun p => (data p).dailyChange) ++ " |",
      "| 24h Revenue | " ++ joinSep " | " (protocols.map fun p => (data p).revenue) ++ " |",
      "| Users | " ++ joinSep " | " (protocols.map fun p => (data p).userCount) ++ " |",
      "", "## Summary", "",
      "This comparison shows key metrics for " ++ joinSep " and " protocols ++ ". ",
      "For more detailed information about each protocol, use the /stats command followed by the protocol name."]

def generateComparisonText (protocols : List String) (data : String → ComparisonData) : String :=
  joinSep "\n" (comparisonLines protocols data)

/-- The documents whose `protocol` field equals the protocol name
(`documents.filter(doc => doc.protocol === protocol)`). -/
def protocolDocsOf (docs : List DocumentChunk) (p : String) : List DocumentChunk :=
  docs.filter fun d => decide (d.protocol = some p)

/-- The per-protocol metric record gathered by `createProtocolComparisonDocument`
from the documents whose `protocol` field equals the protocol name. -/
def comparisonDataFor (docs : List DocumentChunk) (p : String) : ComparisonData :=
  let pDocs := protocolDocsOf docs p
  { name := p
    category := getProtocolCategory pDocs
    tvl := extractTVL pDocs
    dailyChange := extractMetric pDocs ["1d Change", "24h Change", "Daily Change"]
    revenue := extractMetric pDocs ["Revenue 24h"]
    userCount := extractMetric pDocs ["Users", "Unique Users"]
    description := getProtocolDescription pDocs }

/-- `createProtocolComparisonDocument`: `null` when fewer than two protocols
are mentioned, else one synthetic `Comparison` chunk with fixed score 1.0. -/
def createProtocolComparisonDocument (query : String) (docs : List DocumentChunk) :
    Option DocumentChunk :=
  let protocolsToCompare := extractProtocolsForComparison query docs
  if protocolsToCompare.length < 2 then none
  else some
    { content := generateComparisonText protocolsToCompare (comparisonDataFor docs)
      source := "protocol_comparison"
      protocol := some (joinSep "_vs_" protocolsToCompare)
      category := some "Comparison"
      score := some 1 }

/-! ### Query routing and ranking (`simple-rag.ts`) -/

def worldchainKeywords : List String :=
  ["worldchain", "world chain", "world app", "chain 480",
   "worldid", "world id", "worldcoin", "world coin",
   "mini app", "mini-app", "miniapp", "world ecosystem"]

/-- `SimpleRAG.isWorldchainQuery`. -/
def isWorldchainQuery (query : String) : Bool :=
  worldchainKeywords.any fun k => strIncludes (jsToLower query) k

/-- The (non-deduplicated) protocol-name list of `extractProtocolName`. -/
def allProtocolNames (docs : List DocumentChunk) : List String :=
  docs.filterMap fun d =>
    match d.protocol with
    | some p => if p ≠ "" ∧ p ≠ "Worldchain" then some p else none
    | none => none

/-- `SimpleRAG.extractProtocolName`: first known name mentioned in the query. -/
def extractProtocolName (docs : List DocumentChunk) (query : String) : Option String :=
  (allProtocolNames docs).find? fun n => strIncludes (jsToLower query) (jsToLower n)

def defiCategories : List String :=
  ["Lending", "DEX", "Farm", "Yield", "Liquidity", "Gaming",
   "Risk", "Launchpad", "Aggregator", "DEX Aggregator"]

/-- `SimpleRAG.extractCategory`: first category mentioned in the query. -/
def extractCategory (query : String) : Option String :=
  defiCategories.find? fun c => strIncludes (jsToLower query) (jsToLower c)

/-- The candidate filter of `findRelevantDocuments`: protocol filter, else
category filter, else ecosystem filter, for Worldchain queries; the whole
corpus otherwise. -/
def candidateDocuments (docs : List DocumentChunk) (query : String) : List DocumentChunk :=
  if isWorldchainQuery query then
    match extractProtocolName docs query with
    | some name =>
      docs.filter fun d =>
        decide (d.protocol = some name) || strIncludes (jsToLower d.content) (jsToLower name)
    | none =>
      match extractCategory query with
      | some cat =>
        docs.filter fun d =>
          decide (d.category = some cat) || strIncludes (jsToLower d.content) (jsToLower cat)
      | none =>
        docs.filter fun d =>
          strIncludes d.source "worldchain" ||
          (match d.protocol with
           | some p => !(p = "") && strIncludes p "Worldchain"
           | none => false)
  else docs

/-- The `(b.score || 0)` read used by the sort comparator. -/
def jsScore (d : DocumentChunk) : ℚ := d.score.getD 0

/-- Whether a chunk carries the relevance score `s` (used to state stability
of the ranking sort). -/
def scoreIs (s : ℚ) (d : DocumentChunk) : Bool := decide (jsScore d = s)

/-- Candidates with their per-query score written into the `score` field. -/
def scoredCandidates (docs : List DocumentChunk) (query : String) : List DocumentChunk :=
  (candidateDocuments docs query).map fun d =>
    { d with score := some (calculateRelevance query d.content) }

/-- The comparator `(a, b) => (b.score || 0) - (a.score || 0)` keeps `a`
before `b` exactly when the difference is `≤ 0`. -/
def docLE (a b : DocumentChunk) : Bool := decide (jsScore b ≤ jsScore a)

/-- `sort(...).slice(0, limit)` of the ranking path: JS `Array.prototype.sort`
is stable, modelled by the stable `List.mergeSort`. -/
def rankedResults (docs : List DocumentChunk) (query : String) (limit : Nat) :
    List DocumentChunk :=
  ((scoredCandidates docs query).mergeSort docLE).take limit

/-- `SimpleRAG.findRelevantDocuments`: comparison bypass, else ranked results. -/
def findRelevantDocuments (docs : List DocumentChunk) (query : String) (limit : Nat) :
    List DocumentChunk :=
  if isComparisonQuery query docs then
    match createProtocolComparisonDocument query docs with
    | some d => [d]
    | none => rankedResults docs query limit
  else rankedResults docs query limit

/-! ### Markdown/text ingestion branch of `SimpleRAG.initialize` -/

/-- `content.split('## ')` of the ecosystem overview special case. -/
def splitHHGo : List Char → List Char → List (List Char)
  | [], cur => [cur.reverse]
  | '#' :: '#' :: ' ' :: rest, cur => cur.reverse :: splitHHGo rest []
  | c :: cs, cur => splitHHGo cs (c :: cur)

def splitSections (content : String) : List String :=
  (splitHHGo content.data []).map String.mk

/-- One chunk per `## ` section, tagged with the section's first line. -/
def sectionChunk (file : String) (s : String) : DocumentChunk :=
  let sec := jsTrim s
  let sectionTitle := jsTrim (String.mk ((splitChar '\n' sec.data []).headD []))
  { content := "## " ++ sec, source := file, protocol := some "Worldchain",
    category := some sectionTitle }

/-- The `.md`/`.txt` branch of `initialize`: section-splitting for
`worldchain_defi.md`, raw passthrough otherwise. -/
def processTextFile (file content : String) : List DocumentChunk :=
  if file = "worldchain_defi.md" then
    match splitSections content with
    | [] => []
    | s0 :: restSections =>
      (if s0 ≠ "" then
        [{ content := jsTrim s0, source := file, protocol := some "Worldchain",
           category := some "Overview" : DocumentChunk }]
       else [])
      ++ restSections.map (sectionChunk file)
  else [{ content := content, source := file }]

/-! ### Cache manager (`data-manager.js`) -/

/-- The static alias table `protocolAliases`, in source order. -/
def protocolAliases : List (String × String) :=
  [("morpho blue", "morpho"), ("uniswap v3", "uniswap"),
   ("pooltogether v5", "pooltogether"), ("magnify finance", "magnify"),
   ("magnify cash", "magnify"), ("re7", "re7labs"), ("dackieswap dex", "dackieswap")]

def isLowerAlnum (c : Char) : Bool :=
  ('a' ≤ c && c ≤ 'z') || ('0' ≤ c && c ≤ '9')

/-- `replace(/[^a-z0-9]/g, '')` applied after lower-casing. -/
def stripNonAlnum (s : String) : String :=
  String.mk (s.data.filter isLowerAlnum)

/-- `normalizeProtocolName`: lower-case, trim and strip punctuation; the first
alias whose text equals or occurs in the name wins and replaces the result by
the stripped canonical key. -/
def normalizeProtocolName (name : String) : String :=
  if name = "" then ""
  else
    let lowerName := jsTrim (jsToLower name)
    match protocolAliases.find? (fun al => decide (lowerName = al.1) || strIncludes lowerName al.1) with
    | some al => stripNonAlnum (jsToLower al.2)
    | none => stripNonAlnum lowerName

/-- A JS value reaching the `tvl` field: a (non-`NaN`) number, `NaN`, a string,
or a missing value. -/
inductive TvlVal where
  | num (q : ℚ)
  | nan
  | str (s : String)
  | undef
deriving DecidableEq

/-- JS truthiness of a `tvl` value (`0`, `NaN`, `''` and `undefined` are falsy). -/
def TvlVal.truthy : TvlVal → Bool
  | .num q => decide (q ≠ 0)
  | .nan => false
  | .str s => decide (s ≠ "")
  | .undef => false

/-- `x || dflt` for a possibly-missing string. -/
def jsOrStr (v : Option String) (dflt : String) : String :=
  match v with
  | some s => if s = "" then dflt else s
  | none => dflt

/-- `a || b || dflt` for two possibly-missing strings. -/
def jsOrStr2 (a b : Option String) (dflt : String) : String :=
  match a with
  | some s => if s = "" then jsOrStr b dflt else s
  | none => jsOrStr b dflt

/-- `x || 0` for a possibly-missing number. -/
def jsOrQ (v : Option ℚ) : ℚ :=
  match v with
  | some q => q
  | none => 0

/-- `x || dflt` for a possibly-missing timestamp (`0` is falsy). -/
def jsOrNat (v : Option Nat) (dflt : Nat) : Nat :=
  match v with
  | some n => if n = 0 then dflt else n
  | none => dflt

/-- Input shape of `validateProtocolData` (fields absent unless set by the caller). -/
structure RawProtocol where
  name : Option String := none
  description : Option String := none
  tvl : TvlVal := .undef
  category : Option String := none
  website : Option String := none
  chains : Option String := none
  change_1d : Option ℚ := none
  change_7d : Option ℚ := none
  launched : Option String := none
  last_updated : Option Nat := none
  source : Option String := none
deriving DecidableEq

/-- Entity record after validation. -/
structure ValidatedProtocol where
  name : String
  description : String
  tvl : TvlVal
  category : String
  website : String
  chains : Option String
  change_1d : ℚ
  change_7d : ℚ
  launched : Option String
  last_updated : Nat
  source : String
deriving DecidableEq

/-- The `tvl` branch of `validateProtocolData`: a truthy string is kept as-is
(pre-formatted), a truthy number becomes `Math.max(0, parseFloat(tvl))`, and
every falsy value becomes `0`. -/
def validateTvl : TvlVal → TvlVal
  | .num q => if q ≠ 0 then .num (max 0 q) else .num 0
  | .str s => if s ≠ "" then .str s else .num 0
  | .nan => .num 0
  | .undef => .num 0

/-- `validateProtocolData` (`Date.now()` passed in as `now`). -/
def validateProtocolData (p : RawProtocol) (now : Nat) : ValidatedProtocol :=
  { name := jsOrStr p.name "Unknown Protocol"
    description := jsOrStr p.description "No description available."
    category := jsOrStr p.category "DeFi"
    website := jsOrStr p.website "https://defillama.com"
    tvl := validateTvl p.tvl
    chains := p.chains
    change_1d := jsOrQ p.change_1d
    change_7d := jsOrQ p.change_7d
    launched := p.launched
    last_updated := jsOrNat p.last_updated now
    source := jsOrStr p.source "api" }

/-- A record of the trending list returned by `defiLlama.getTrendingProtocols`. -/
structure TrendingProtocol where
  name : String
  category : Option String := none
  chains : Option String := none
deriving DecidableEq

/-- A record returned by `defiLlama.getProtocolInfo` (`none` models both a
thrown error and a `null` result, which the refresh loop treats alike). -/
structure ProtocolInfo where
  description : Option String := none
  tvl : TvlVal := .undef
  category : Option String := none
  url : Option String := none
  chains : Option String := none
  change_1d : Option ℚ := none
  change_7d : Option ℚ := none
deriving DecidableEq

/-- The external world of one refresh call: the trending list per attempt
number, the per-protocol detail lookup, and the clock. -/
structure ApiEnv where
  trending : Nat → Option (List TrendingProtocol)
  info : String → Option ProtocolInfo
  now : Nat

/-- The record assembled for a freshly fetched protocol before validation. -/
def rawFromApi (t : TrendingProtocol) (info : ProtocolInfo) (now : Nat) : RawProtocol :=
  { name := some t.name
    description := some (jsOrStr info.description
      (t.name ++ " is a protocol on WorldChain and other chains."))
    tvl := if info.tvl.truthy then info.tvl else .num 0
    category := some (jsOrStr2 info.category t.category "DeFi")
    website := some (jsOrStr info.url "https://defillama.com")
    chains := some (jsOrStr2 info.chains t.chains "1 chain")
    change_1d := some (jsOrQ info.change_1d)
    change_7d := some (jsOrQ info.change_7d)
    last_updated := some now }

/-- An entry of the local fallback dataset `deFiProtocols`. -/
structure LocalProtocol where
  name : String
  description : String
  tvl : String
  category : String
  website : String
  launched : Option String := none
  chains : Option String := none
deriving DecidableEq

/-- The record assembled for a fallback protocol before validation. -/
def rawFromLocal (p : LocalProtocol) (now : Nat) : RawProtocol :=
  { name := some p.name
    description := some p.description
    tvl := .str p.tvl
    category := some p.category
    website := some p.website
    chains := some (jsOrStr p.chains "1 chain")
    launched := p.launched
    last_updated := some now
    source := some "local" }

/-- Lookup in a JS object modelled as an insertion-ordered association list. -/
def objGet (m : List (String × ValidatedProtocol)) (k : String) : Option ValidatedProtocol :=
  (m.find? fun kv => decide (kv.1 = k)).map (·.2)

/-- JS `obj[k] = v`: overwrite in place if present, else append. -/
def objInsert (m : List (String × ValidatedProtocol)) (k : String) (v : ValidatedProtocol) :
    List (String × ValidatedProtocol) :=
  if (objGet m k).isSome then m.map fun kv => if kv.1 = k then (k, v) else kv
  else m ++ [(k, v)]

/-- The fresh-protocols object built from the top 20 trending entries; entries
whose detail lookup fails are skipped. -/
def buildFresh (env : ApiEnv) (ts : List TrendingProtocol) : List (String × ValidatedProtocol) :=
  (ts.take 20).foldl (fun m t =>
    match env.info t.name with
    | some info =>
      objInsert m (normalizeProtocolName t.name) (validateProtocolData (rawFromApi t info env.now) env.now)
    | none => m) []

/-- One iteration of the fallback-merge loop: a local entity is added only
when its normalized key is not already present. -/
def mergeStep (now : Nat) (m : List (String × ValidatedProtocol))
    (kv : String × LocalProtocol) : List (String × ValidatedProtocol) :=
  let nk := normalizeProtocolName kv.2.name
  if (objGet m nk).isSome then m
  else objInsert m nk (validateProtocolData (rawFromLocal kv.2 now) now)

/-- The fallback merge over the whole local dataset. -/
def mergeLocals (fresh : List (String × ValidatedProtocol))
    (locals : List (String × LocalProtocol)) (now : Nat) : List (String × ValidatedProtocol) :=
  locals.foldl (mergeStep now) fresh

/-- The in-memory `protocolsCache`. -/
structure ProtocolsCache where
  timestamp : Nat
  protocols : List (String × ValidatedProtocol)
  version : Nat
  lastRefreshAttempt : Nat
  refreshSuccess : Bool
deriving DecidableEq

def maxRetries : Nat := 3

/-- An attempt's trending result is usable when it is neither an error nor empty. -/
def goodTrending : Option (List TrendingProtocol) → Option (List TrendingProtocol)
  | some ts => if ts.isEmpty then none else some ts
  | none => none

/-- The cache written on a successful attempt. -/
def successCache (env : ApiEnv) (locals : List (String × LocalProtocol))
    (c : ProtocolsCache) (ts : List TrendingProtocol) : ProtocolsCache :=
  { timestamp := env.now
    protocols := mergeLocals (buildFresh env ts) locals env.now
    version := c.version + 1
    lastRefreshAttempt := env.now
    refreshSuccess := true }

/-- The `for (attempt = 1; attempt <= MAX_RETRIES; ...)` loop body: succeed and
return, or retry, or give up setting `refreshSuccess = false`. -/
def refreshLoop (env : ApiEnv) (locals : List (String × LocalProtocol))
    (c : ProtocolsCache) : Nat → Nat → ProtocolsCache × Bool
  | _, 0 => (c, false)
  | attempt, fuel + 1 =>
    match goodTrending (env.trending attempt) with
    | some ts => (successCache env locals c ts, true)
    | none =>
      if fuel = 0 then ({ c with refreshSuccess := false }, false)
      else refreshLoop env locals c (attempt + 1) fuel

/-- `refreshProtocolData`: record the attempt timestamp, then run up to
`MAX_RETRIES` attempts. -/
def refreshProtocolData (env : ApiEnv) (locals : List (String × LocalProtocol))
    (c : ProtocolsCache) : ProtocolsCache × Bool :=
  refreshLoop env locals { c with lastRefreshAttempt := env.now } 1 maxRetries

/-- The trending list of the attempt that succeeds, if any (attempts are
numbered 1 to `MAX_RETRIES`). -/
def firstGoodAttempt (env : ApiEnv) : Option (List TrendingProtocol) :=
  match goodTrending (env.trending 1) with
  | some ts => some ts
  | none =>
    match goodTrending (env.trending 2) with
    | some ts => some ts
    | none => goodTrending (env.trending 3)

/-- The freshly fetched set of a refresh call, when some attempt succeeds. -/
def freshProtocolsOf (env : ApiEnv) : Option (List (String × ValidatedProtocol)) :=
  (firstGoodAttempt env).map (buildFresh env)

/-- `findProtocol`: four lookup tiers over `Object.values` of the cache —
normalized-name equality, alias table, substring either way, then word-level
partial overlap. -/
def findProtocol (m : List (String × ValidatedProtocol)) (name : String) :
    Option ValidatedProtocol :=
  if name = "" then none
  else
    let vals := m.map (·.2)
    let normalizedQuery := normalizeProtocolName name
    match vals.find? (fun p => decide (normalizeProtocolName p.name = normalizedQuery)) with
    | some p => some p
    | none =>
      let lowerName := jsTrim (jsToLower name)
      match protocolAliases.findSome? (fun al =>
          if decide (lowerName = al.1) || strIncludes lowerName al.1 then
            vals.find? fun p =>
              decide (normalizeProtocolName p.name = normalizeProtocolName al.2)
          else none) with
      | some p => some p
      | none =>
        match vals.find? (fun p =>
            strIncludes (jsToLower p.name) lowerName || strIncludes lowerName (jsToLower p.name)) with
        | some p => some p
        | none =>
          let words := splitWs lowerName.data
          vals.findSome? fun p =>
            let protocolWords := splitWs (jsToLower p.name).data
            if words.any (fun w => decide (w.length > 2) &&
                protocolWords.any fun pw => hasInfix pw w || hasInfix w pw) then
              some p
            else none

/-- The local fallback dataset `deFiProtocols` of `railway-deploy.js`,
as `Object.entries` in source order. -/
def localProtocols : List (String × LocalProtocol) :=
  [("morpho",
    { name := "Morpho"
      description := "Lending protocol optimizing liquidity utilization across multiple chains including WorldChain."
      tvl := "$43.99M", category := "Lending", website := "https://morpho.org"
      launched := some "2023 on WorldChain", chains := some "18 chains" }),
   ("re7labs",
    { name := "Re7 Labs"
      description := "Risk Curators protocol operating across multiple chains including WorldChain."
      tvl := "$33.09M", category := "Risk Curators", website := "https://re7labs.com"
      launched := some "2023 on WorldChain", chains := some "10 chains" }),
   ("uniswap",
    { name := "Uniswap"
      description := "Leading decentralized exchange protocol with presence on WorldChain and many other chains."
      tvl := "$5.15M", category := "DEX", website := "https://uniswap.org"
      launched := some "2023 on WorldChain", chains := some "35 chains" }),
   ("pooltogether",
    { name := "PoolTogether"
      description := "No-loss savings protocol utilizing prize-linked savings accounts across multiple chains."
      tvl := "$458,028", category := "Savings", website := "https://pooltogether.com"
      launched := some "2023 on WorldChain", chains := some "8 chains" }),
   ("memewallet",
    { name := "Meme Wallet"
      description := "Launchpad protocol focused on meme tokens on WorldChain."
      tvl := "$14,583", category := "Launchpad", website := "https://memewallet.xyz"
      launched := some "2024 on WorldChain", chains := some "1 chain" }),
   ("magnify",
    { name := "Magnify Cash"
      description := "Lending protocol native to WorldChain with focus on capital efficiency."
      tvl := "$9,280", category := "Lending", website := "https://magnify.cash"
      launched := some "2024 on WorldChain", chains := some "1 chain" }),
   ("gamma",
    { name := "Gamma"
      description := "Liquidity management protocol operating across multiple chains including WorldChain."
      tvl := "$2,895", category := "Liquidity manager", website := "https://gamma.xyz"
      launched := some "2023 on WorldChain", chains := some "36 chains" }),
   ("dackieswap",
    { name := "DackieSwap"
      description := "Decentralized exchange with multi-chain presence including WorldChain."
      tvl := "$80.26", category := "DEX", website := "https://dackieswap.xyz"
      launched := some "2024 on WorldChain", chains := some "9 chains" }),
   ("fisclend",
    { name := "Fisclend Finance"
      description := "Lending protocol with focus on cross-chain functionality."
      tvl := "$56.05", category := "Lending", website := "https://fisclend.finance"
      launched := some "2024 on WorldChain", chains := some "3 chains" }),
   ("worldle",
    { name := "Worldle"
      description := "Gaming protocol on WorldChain with integration to World ID."
      tvl := "$380", category := "Gaming", website := "https://worldle.xyz"
      launched := some "2024 on WorldChain", chains := some "1 chain" }),
   ("humanfi",
    { name := "HumanFi"
      description := "DEX Aggregator leveraging proof-of-humanity for enhanced functionality."
      tvl := "$61", category := "DEX Aggregator", website := "https://humanfi.xyz"
      launched := some "2024 on WorldChain", chains := some "1 chain" })]

/-! ### Derived predicates and concrete instances used by the theorems -/

/-- Whether a stored `tvl` is a non-negative number. -/
def isNonnegNumberTvl : TvlVal → Bool
  | .num q => decide (0 ≤ q)
  | _ => false

/-- The overview document's leading text (before the first `## `) is either
empty or survives trimming. -/
def introOK (content : String) : Bool :=
  match splitSections content with
  | [] => true
  | s0 :: _ => s0 == "" || !(jsTrim s0 == "")

/-- A two-protocol corpus in the shape produced by
`processWorldchainProtocols`. -/
def exDocs : List DocumentChunk :=
  [{ content := "# Morpho\n\nMorpho is a lending protocol on Worldchain.\n\nCurrent TVL: $43.99M\n24h Change: +2.5%"
     source := "worldchain_protocols.json", protocol := some "Morpho", category := some "Lending" },
   { content := "# Uniswap\n\nUniswap is a dex protocol on Worldchain.\n\nCurrent TVL: $5.15M\n24h Change: -1.2%"
     source := "worldchain_protocols.json", protocol := some "Uniswap", category := some "DEX" }]

/-- The synthetic chunk produced for `exDocs` by a Morpho/Uniswap comparison. -/
def exCompChunk : DocumentChunk :=
  (createProtocolComparisonDocument "compare Morpho and Uniswap" exDocs).getD
    { content := "", source := "" }

/-- A two-protocol corpus in the shape produced by `processWorldchainMiniApps`,
whose chunks contain no extractable TVL text. -/
def exDocsNoTvl : List DocumentChunk :=
  [{ content := "Alpaca is a gaming mini app on Worldchain."
     source := "worldchain_mini_apps.json", protocol := some "Alpaca", category := some "Gaming" },
   { content := "Bobcat is a social mini app on Worldchain."
     source := "worldchain_mini_apps.json", protocol := some "Bobcat", category := some "Social" }]

/-- The synthetic chunk produced for `exDocsNoTvl` by an Alpaca/Bobcat
comparison. -/
def exCompChunkNoTvl : DocumentChunk :=
  (createProtocolComparisonDocument "compare Alpaca and Bobcat" exDocsNoTvl).getD
    { content := "", source := "" }

/-- An entity provider whose trending list is empty on every attempt. -/
def exEnvEmpty : ApiEnv :=
  { trending := fun _ => some [], info := fun _ => none, now := 100 }

/-- An entity provider that succeeds with one trending entry whose detail
lookup fails (the entry is skipped, the attempt still succeeds). -/
def exEnvOk : ApiEnv :=
  { trending := fun _ => some [{ name := "Morpho" }], info := fun _ => none, now := 100 }

def exInfoMorpho : ProtocolInfo := { tvl := TvlVal.num 5 }

/-- An entity provider that returns one trending Morpho entry with details. -/
def exEnvC6 : ApiEnv :=
  { trending := fun _ => some [{ name := "Morpho" }]
    info := fun n => if n = "Morpho" then some exInfoMorpho else none
    now := 100 }

def exFreshC6 : List (String × ValidatedProtocol) := (freshProtocolsOf exEnvC6).getD []

def exStale : ValidatedProtocol := validateProtocolData { name := some "Old" } 7

def exCache : ProtocolsCache :=
  { timestamp := 5, protocols := [("old", exStale)], version := 2,
    lastRefreshAttempt := 4, refreshSuccess := true }

/-- The `fisclend` entry of the fallback dataset. -/
def exLocalFisclend : String × LocalProtocol :=
  ("fisclend",
   { name := "Fisclend Finance"
     description := "Lending protocol with focus on cross-chain functionality."
     tvl := "$56.05", category := "Lending", website := "https://fisclend.finance"
     launched := some "2024 on WorldChain", chains := some "3 chains" })

/-! ## Helper lemmas -/

theorem foldl_count_eq_filter {α : Type} (p : α → Bool) :
    ∀ (l : List α) (n : Nat),
      l.foldl (fun n w => if p w then n + 1 else n) n = n + (l.filter p).length := by
  intro l
  induction l with
  | nil => simp
  | cons a as ih =>
    intro n
    by_cases h : p a
    · simp [h, ih, Nat.add_assoc, Nat.add_comm 1]
    · simp [h, ih]

theorem splitWs_ne_nil : ∀ (cs : List Char), splitWs cs ≠ []
  | [] => by simp [splitWs]
  | c :: cs => by
    rw [splitWs.eq_def]
    by_cases h : jsIsWs c
    · rcases cs with _ | ⟨c', cs'⟩
      · simp [h]
      · by_cases h' : jsIsWs c' <;> simp [h', h, splitWs_ne_nil (c' :: cs')]
    · rcases hr : splitWs cs with _ | ⟨t, ts⟩ <;> simp [h, hr]

/-- `calculateRelevance` in filtered form: matched long words over all words. -/
theorem calculateRelevance_eq (query content : String) :
    calculateRelevance query content =
      (((queryWordsOf query).filter fun w =>
          decide (w.length > 2) && hasInfix (jsToLower content).data w).length : ℚ) /
        ((queryWordsOf query).length : ℚ) := by
  have h := foldl_count_eq_filter
    (fun w => decide (w.length > 2) && hasInfix (jsToLower content).data w) (queryWordsOf query) 0
  calc calculateRelevance query content
      = (((queryWordsOf query).foldl
            (fun n w =>
              if decide (w.length > 2) && hasInfix (jsToLower content).data w then n + 1 else n)
            0 : Nat) : ℚ) / ((queryWordsOf query).length : ℚ) := rfl
    _ = _ := by rw [h]; simp

theorem queryWordsOf_length_pos (query : String) : 0 < (queryWordsOf query).length :=
  List.length_pos.mpr (splitWs_ne_nil _)

/-! ## C2 -/

/-- C2: the ranker's score equals the number of whitespace-separated query
terms of length > 2 occurring in the lower-cased content divided by the total
term count (terms as produced by `split(/\s+/)`, which is never empty), so a
query with no term longer than 2 characters scores 0 with no division by
zero. -/
theorem calculateRelevance_matches_spec (query content : String) :
    calculateRelevance query content = specScoreFormula query content ∧
    0 < (queryWordsOf query).length ∧
    ((∀ w ∈ queryWordsOf query, ¬ 2 < w.length) →
      calculateRelevance query content = 0) := by
  refine ⟨?_, queryWordsOf_length_pos query, ?_⟩
  · rw [calculateRelevance_eq]
    simp [specScoreFormula]
  · intro h
    rw [calculateRelevance_eq]
    have hnil : ((queryWordsOf query).filter fun w =>
        decide (w.length > 2) && hasInfix (jsToLower content).data w) = [] := by
      rw [List.filter_eq_nil_iff]
      intro w hw
      simp only [Bool.and_eq_true, decide_eq_true_eq, not_and]
      intro hlen
      exact absurd hlen (h w hw)
    rw [hnil]
    simp

/-- C2 witness: the query `"hi a"` has terms `["hi", "a"]`, none longer than
2 characters, and scores 0 against an arbitrary content. -/
theorem calculateRelevance_matches_spec_witness :
    calculateRelevance "hi a" "higher arena" = specScoreFormula "hi a" "higher arena" ∧
    0 < (queryWordsOf "hi a").length ∧
    calculateRelevance "hi a" "higher arena" = 0 :=
  ⟨(calculateRelevance_matches_spec "hi a" "higher arena").1,
   (calculateRelevance_matches_spec "hi a" "higher arena").2.1,
   (calculateRelevance_matches_spec "hi a" "higher arena").2.2 (by decide)⟩

/-! ## C10 -/

/-- C10: the ranker's score always lies in `[0, 1]`, and the synthetic
comparison chunk carries the fixed score 1, so no organically ranked chunk can
out-rank it. -/
theorem relevance_bounded_by_synthetic_score (query content : String) :
    0 ≤ calculateRelevance query content ∧ calculateRelevance query content ≤ 1 ∧
    ∀ (q : String) (docs : List DocumentChunk) (d : DocumentChunk),
      createProtocolComparisonDocument q docs = some d →
      jsScore d = 1 ∧ calculateRelevance query content ≤ jsScore d := by
  have hle1 : calculateRelevance query content ≤ 1 := by
    rw [calculateRelevance_eq]
    rw [div_le_one (by exact_mod_cast queryWordsOf_length_pos query)]
    exact_mod_cast List.length_filter_le _ _
  have h0 : 0 ≤ calculateRelevance query content := by
    rw [calculateRelevance_eq]
    positivity
  refine ⟨h0, hle1, ?_⟩
  intro q docs d h
  by_cases hlen : (extractProtocolsForComparison q docs).length < 2
  · simp [createProtocolComparisonDocument, hlen] at h
  · simp only [createProtocolComparisonDocument, if_neg hlen, Option.some.injEq] at h
    subst h
    exact ⟨rfl, by simpa [jsScore] using hle1⟩

/-- C10 witness: a concrete score is within bounds and does not exceed the
score of the concrete synthetic chunk built for `exDocs`. -/
theorem relevance_bounded_by_synthetic_score_witness :
    0 ≤ calculateRelevance "morpho tvl" "Morpho TVL data" ∧
    calculateRelevance "morpho tvl" "Morpho TVL data" ≤ 1 ∧
    (jsScore exCompChunk = 1 ∧
      calculateRelevance "morpho tvl" "Morpho TVL data" ≤ jsScore exCompChunk) :=
  ⟨(relevance_bounded_by_synthetic_score "morpho tvl" "Morpho TVL data").1,
   (relevance_bounded_by_synthetic_score "morpho tvl" "Morpho TVL data").2.1,
   (relevance_bounded_by_synthetic_score "morpho tvl" "Morpho TVL data").2.2
     "compare Morpho and Uniswap" exDocs exCompChunk (by decide)⟩

/-! ## C7 -/

/-- C7 (amended): a falsy or numeric `tvl` input — including a negative or
`NaN` number and the empty string — is stored as a non-negative number
(missing values default to 0); a non-empty string `tvl`, however, is kept
unchanged as a string, not coerced to a number. -/
theorem validate_tvl_coercion (p : RawProtocol) (now : Nat) :
    ((∀ s, p.tvl ≠ TvlVal.str s) →
      isNonnegNumberTvl (validateProtocolData p now).tvl = true) ∧
    ∀ s, p.tvl = TvlVal.str s →
      (validateProtocolData p now).tvl = if s = "" then TvlVal.num 0 else TvlVal.str s := by
  constructor
  · intro h
    rcases htvl : p.tvl with q | _ | s | _
    · by_cases hq : q ≠ 0 <;>
        simp [validateProtocolData, validateTvl, htvl, hq, isNonnegNumberTvl, le_max_left]
    · simp [validateProtocolData, validateTvl, htvl, isNonnegNumberTvl]
    · exact absurd htvl (h s)
    · simp [validateProtocolData, validateTvl, htvl, isNonnegNumberTvl]
  · intro s hs
    by_cases hse : s = "" <;>
      simp [validateProtocolData, validateTvl, hs, hse]

/-- C7 witness: a negative numeric `tvl` is stored as a non-negative number,
and an empty-string `tvl` defaults to the number 0. -/
theorem validate_tvl_coercion_witness :
    isNonnegNumberTvl (validateProtocolData { tvl := TvlVal.num (-5) } 0).tvl = true ∧
    (validateProtocolData { tvl := TvlVal.str "" } 0).tvl =
      if ("" : String) = "" then TvlVal.num 0 else TvlVal.str "" :=
  ⟨(validate_tvl_coercion { tvl := TvlVal.num (-5) } 0).1 (fun _ h => TvlVal.noConfusion h),
   (validate_tvl_coercion { tvl := TvlVal.str "" } 0).2 "" rfl⟩

/-- C7 counterexample: the non-numeric string `"N/A"` is truthy, so
`validateProtocolData` keeps it as a string — the stored `tvl` is not a
non-negative number, contradicting the claim for string inputs. -/
theorem validate_tvl_string_kept_cex :
    (validateProtocolData { tvl := TvlVal.str "N/A" } 0).tvl = TvlVal.str "N/A" ∧
    isNonnegNumberTvl (validateProtocolData { tvl := TvlVal.str "N/A" } 0).tvl = false := by
  constructor <;> rfl

/-! ## C8 -/

/-- C8: `"Morpho Blue"` (via the alias table), `"MORPHO"` (via case folding
and punctuation stripping) and `"morpho"` all normalize to the identical
canonical key `"morpho"`. -/
theorem normalize_morpho_aliases :
    normalizeProtocolName "Morpho Blue" = normalizeProtocolName "morpho" ∧
    normalizeProtocolName "MORPHO" = normalizeProtocolName "morpho" ∧
    normalizeProtocolName "morpho" = "morpho" := by
  refine ⟨?_, ?_, ?_⟩ <;> decide

/-! ## C4 -/

theorem refreshLoop_all_empty (env : ApiEnv) (locals : List (String × LocalProtocol))
    (c : ProtocolsCache) (h : ∀ n, env.trending n = some []) :
    ∀ (fuel attempt : Nat), 0 < fuel →
      refreshLoop env locals c attempt fuel = ({ c with refreshSuccess := false }, false) := by
  intro fuel
  induction fuel with
  | zero => intro attempt h0; exact absurd h0 (by simp)
  | succ n ih =>
    intro attempt _
    rw [refreshLoop, h attempt]
    simp only [goodTrending, List.isEmpty_nil, if_true]
    by_cases hn : n = 0
    · simp [hn]
    · simp only [hn, if_false]
      exact ih (attempt + 1) (Nat.pos_of_ne_zero hn)

/-- C4: if the entity provider returns an empty trending list on every
attempt, the refresh cycle ends with `refreshSuccess = false`, reports
failure, and leaves the previously cached entity map — and hence every
`findProtocol` lookup — unchanged. -/
theorem refresh_empty_provider_keeps_stale (env : ApiEnv)
    (locals : List (String × LocalProtocol)) (c : ProtocolsCache)
    (h : ∀ n, env.trending n = some []) :
    (refreshProtocolData env locals c).1.refreshSuccess = false ∧
    (refreshProtocolData env locals c).1.protocols = c.protocols ∧
    (refreshProtocolData env locals c).2 = false ∧
    ∀ name, findProtocol (refreshProtocolData env locals c).1.protocols name =
      findProtocol c.protocols name := by
  have hres : refreshProtocolData env locals c =
      ({ c with lastRefreshAttempt := env.now, refreshSuccess := false }, false) := by
    unfold refreshProtocolData
    exact refreshLoop_all_empty env locals _ h maxRetries 1 (by decide)
  rw [hres]
  exact ⟨rfl, rfl, rfl, fun _ => rfl⟩

/-- C4 witness: a concrete always-empty provider leaves the concrete stale
cache `exCache` untouched and marks the refresh failed. -/
theorem refresh_empty_provider_keeps_stale_witness :
    (refreshProtocolData exEnvEmpty [] exCache).1.refreshSuccess = false ∧
    (refreshProtocolData exEnvEmpty [] exCache).1.protocols = exCache.protocols ∧
    (refreshProtocolData exEnvEmpty [] exCache).2 = false :=
  ⟨(refresh_empty_provider_keeps_stale exEnvEmpty [] exCache fun _ => rfl).1,
   (refresh_empty_provider_keeps_stale exEnvEmpty [] exCache fun _ => rfl).2.1,
   (refresh_empty_provider_keeps_stale exEnvEmpty [] exCache fun _ => rfl).2.2.1⟩

/-! ## C5 -/

theorem refreshLoop_version (env : ApiEnv) (locals : List (String × LocalProtocol))
    (c : ProtocolsCache) :
    ∀ (fuel attempt : Nat), (refreshLoop env locals c attempt fuel).2 = true →
      (refreshLoop env locals c attempt fuel).1.version = c.version + 1 := by
  intro fuel
  induction fuel with
  | zero => intro attempt h; simp [refreshLoop] at h
  | succ n ih =>
    intro attempt h
    rcases hg : goodTrending (env.trending attempt) with _ | ts
    · rw [refreshLoop, hg] at h ⊢
      dsimp only at h ⊢
      by_cases hn : n = 0
      · rw [if_pos hn] at h
        simp at h
      · rw [if_neg hn] at h ⊢
        exact ih (attempt + 1) h
    · rw [refreshLoop, hg] at h ⊢
      rfl

theorem refresh_version_succ (env : ApiEnv) (locals : List (String × LocalProtocol))
    (c : ProtocolsCache) (h : (refreshProtocolData env locals c).2 = true) :
    (refreshProtocolData env locals c).1.version = c.version + 1 := by
  unfold refreshProtocolData at h ⊢
  exact refreshLoop_version env locals _ maxRetries 1 h

/-- C5: across two successful refresh cycles the version counter strictly
increases — the snapshot of the later cycle carries a strictly greater
version than the snapshot of the earlier one (and than the starting cache). -/
theorem refresh_version_strictly_increases (env₁ env₂ : ApiEnv)
    (l₁ l₂ : List (String × LocalProtocol)) (c : ProtocolsCache)
    (h₁ : (refreshProtocolData env₁ l₁ c).2 = true)
    (h₂ : (refreshProtocolData env₂ l₂ (refreshProtocolData env₁ l₁ c).1).2 = true) :
    c.version < (refreshProtocolData env₁ l₁ c).1.version ∧
    (refreshProtocolData env₁ l₁ c).1.version <
      (refreshProtocolData env₂ l₂ (refreshProtocolData env₁ l₁ c).1).1.version := by
  have k₁ := refresh_version_succ env₁ l₁ c h₁
  have k₂ := refresh_version_succ env₂ l₂ (refreshProtocolData env₁ l₁ c).1 h₂
  omega

/-- C5 witness: two concrete successful refreshes from `exCache` produce
versions 3 and 4. -/
theorem refresh_version_strictly_increases_witness :
    exCache.version < (refreshProtocolData exEnvOk [] exCache).1.version ∧
    (refreshProtocolData exEnvOk [] exCache).1.version <
      (refreshProtocolData exEnvOk [] (refreshProtocolData exEnvOk [] exCache).1).1.version :=
  refresh_version_strictly_increases exEnvOk exEnvOk [] [] exCache (by decide) (by decide)

/-! ## C6 -/

theorem objGet_append_right (m : List (String × ValidatedProtocol)) (k : String)
    (v : ValidatedProtocol) (h : objGet m k = none) : objGet (m ++ [(k, v)]) k = some v := by
  unfold objGet at h ⊢
  have hf : m.find? (fun kv => decide (kv.1 = k)) = none := by
    cases hx : m.find? (fun kv => decide (kv.1 = k)) <;> simp [hx] at h ⊢
  rw [List.find?_append, hf]
  simp

theorem objGet_append_other (m : List (String × ValidatedProtocol)) (k k' : String)
    (v : ValidatedProtocol) (h : k' ≠ k) : objGet (m ++ [(k', v)]) k = objGet m k := by
  unfold objGet
  rw [List.find?_append]
  cases hx : m.find? (fun kv => decide (kv.1 = k)) <;> simp [hx, List.find?, h]

theorem isSome_false_eq_none {v : Option ValidatedProtocol} (h : ¬ v.isSome = true) :
    v = none := by
  cases v <;> simp_all

theorem mergeStep_of_present (now : Nat) (m : List (String × ValidatedProtocol))
    (kv : String × LocalProtocol)
    (h : (objGet m (normalizeProtocolName kv.2.name)).isSome) :
    mergeStep now m kv = m := by
  unfold mergeStep
  simp [h]

theorem mergeStep_of_absent (now : Nat) (m : List (String × ValidatedProtocol))
    (kv : String × LocalProtocol)
    (h : objGet m (normalizeProtocolName kv.2.name) = none) :
    mergeStep now m kv =
      m ++ [(normalizeProtocolName kv.2.name,
             validateProtocolData (rawFromLocal kv.2 now) now)] := by
  unfold mergeStep objInsert
  simp [h]

theorem mergeFold_preserves (now : Nat) :
    ∀ (locals : List (String × LocalProtocol)) (m : List (String × ValidatedProtocol))
      (k : String) (v : ValidatedProtocol),
      objGet m k = some v → objGet (locals.foldl (mergeStep now) m) k = some v := by
  intro locals
  induction locals with
  | nil => intro m k v h; simpa using h
  | cons hd tl ih =>
    intro m k v h
    rw [List.foldl_cons]
    apply ih
    by_cases hp : (objGet m (normalizeProtocolName hd.2.name)).isSome
    · rw [mergeStep_of_present now m hd hp]; exact h
    · have habs := isSome_false_eq_none hp
      rw [mergeStep_of_absent now m hd habs]
      have hne : normalizeProtocolName hd.2.name ≠ k := by
        intro he
        rw [he] at habs
        rw [habs] at h
        cases h
      rw [objGet_append_other _ _ _ _ hne]
      exact h

theorem mergeFold_adds (now : Nat) :
    ∀ (locals : List (String × LocalProtocol)) (m : List (String × ValidatedProtocol))
      (kv : String × LocalProtocol),
      kv ∈ locals →
      (locals.map fun x => normalizeProtocolName x.2.name).Nodup →
      objGet m (normalizeProtocolName kv.2.name) = none →
      objGet (locals.foldl (mergeStep now) m) (normalizeProtocolName kv.2.name) =
        some (validateProtocolData (rawFromLocal kv.2 now) now) := by
  intro locals
  induction locals with
  | nil => intro m kv h; cases h
  | cons hd tl ih =>
    intro m kv hmem hnd habs
    have hnd' : (normalizeProtocolName hd.2.name ∉
        tl.map fun x => normalizeProtocolName x.2.name) ∧
        (tl.map fun x => normalizeProtocolName x.2.name).Nodup := by
      rw [List.map_cons, List.nodup_cons] at hnd
      exact hnd
    rw [List.foldl_cons]
    rcases List.mem_cons.mp hmem with heq | hmem'
    · subst heq
      rw [mergeStep_of_absent now m kv habs]
      exact mergeFold_preserves now tl _ _ _ (objGet_append_right m _ _ habs)
    · have hne : normalizeProtocolName kv.2.name ≠ normalizeProtocolName hd.2.name := by
        intro he
        exact hnd'.1 (he ▸ List.mem_map_of_mem _ hmem')
      apply ih _ kv hmem' hnd'.2
      by_cases hp : (objGet m (normalizeProtocolName hd.2.name)).isSome
      · rw [mergeStep_of_present now m hd hp]; exact habs
      · have habs2 := isSome_false_eq_none hp
        rw [mergeStep_of_absent now m hd habs2]
        rw [objGet_append_other _ _ _ _ (Ne.symm hne)]
        exact habs

theorem refreshLoop_found3 (env : ApiEnv) (locals : List (String × LocalProtocol))
    (c0 : ProtocolsCache) (a : Nat) (ts : List TrendingProtocol)
    (h : goodTrending (env.trending a) = some ts) :
    refreshLoop env locals c0 a maxRetries = (successCache env locals c0 ts, true) := by
  show refreshLoop env locals c0 a (2 + 1) = _
  rw [refreshLoop, h]

theorem refreshLoop_found2 (env : ApiEnv) (locals : List (String × LocalProtocol))
    (c0 : ProtocolsCache) (a : Nat) (ts : List TrendingProtocol)
    (h : goodTrending (env.trending a) = some ts) :
    refreshLoop env locals c0 a 2 = (successCache env locals c0 ts, true) := by
  show refreshLoop env locals c0 a (1 + 1) = _
  rw [refreshLoop, h]

theorem refreshLoop_found1 (env : ApiEnv) (locals : List (String × LocalProtocol))
    (c0 : ProtocolsCache) (a : Nat) (ts : List TrendingProtocol)
    (h : goodTrending (env.trending a) = some ts) :
    refreshLoop env locals c0 a 1 = (successCache env locals c0 ts, true) := by
  show refreshLoop env locals c0 a (0 + 1) = _
  rw [refreshLoop, h]

theorem refreshLoop_miss3 (env : ApiEnv) (locals : List (String × LocalProtocol))
    (c0 : ProtocolsCache) (a : Nat) (h : goodTrending (env.trending a) = none) :
    refreshLoop env locals c0 a maxRetries = refreshLoop env locals c0 (a + 1) 2 := by
  show refreshLoop env locals c0 a (2 + 1) = _
  rw [refreshLoop, h]
  dsimp only
  rw [if_neg (by decide)]

theorem refreshLoop_miss2 (env : ApiEnv) (locals : List (String × LocalProtocol))
    (c0 : ProtocolsCache) (a : Nat) (h : goodTrending (env.trending a) = none) :
    refreshLoop env locals c0 a 2 = refreshLoop env locals c0 (a + 1) 1 := by
  show refreshLoop env locals c0 a (1 + 1) = _
  rw [refreshLoop, h]
  dsimp only
  rw [if_neg (by decide)]

/-- On a refresh whose first usable attempt yields `fresh`, the result is the
atomically swapped successful snapshot built from `fresh` and the fallback. -/
theorem refresh_success_shape (env : ApiEnv) (locals : List (String × LocalProtocol))
    (c : ProtocolsCache) (fresh : List (String × ValidatedProtocol))
    (hf : freshProtocolsOf env = some fresh) :
    refreshProtocolData env locals c =
      ({ timestamp := env.now, protocols := mergeLocals fresh locals env.now,
         version := c.version + 1, lastRefreshAttempt := env.now,
         refreshSuccess := true }, true) := by
  unfold refreshProtocolData
  unfold freshProtocolsOf firstGoodAttempt at hf
  rcases h1 : goodTrending (env.trending 1) with _ | ts1
  · rw [h1] at hf
    dsimp only at hf
    rcases h2 : goodTrending (env.trending 2) with _ | ts2
    · rw [h2] at hf
      dsimp only at hf
      rcases h3 : goodTrending (env.trending 3) with _ | ts3
      · rw [h3] at hf
        cases hf
      · rw [h3] at hf
        obtain rfl : buildFresh env ts3 = fresh := Option.some.inj hf
        rw [refreshLoop_miss3 env locals _ 1 h1]
        norm_num
        rw [refreshLoop_miss2 env locals _ 2 h2]
        norm_num
        rw [refreshLoop_found1 env locals _ 3 ts3 h3]
        rfl
    · rw [h2] at hf
      obtain rfl : buildFresh env ts2 = fresh := Option.some.inj hf
      rw [refreshLoop_miss3 env locals _ 1 h1]
      norm_num
      rw [refreshLoop_found2 env locals _ 2 ts2 h2]
      rfl
  · rw [h1] at hf
    obtain rfl : buildFresh env ts1 = fresh := Option.some.inj hf
    rw [refreshLoop_found3 env locals _ 1 ts1 h1]
    rfl

set_option maxHeartbeats 16000000 in
theorem localProtocols_keys_nodup :
    (localProtocols.map fun x => normalizeProtocolName x.2.name).Nodup := by decide

set_option maxHeartbeats 1000000 in
theorem localProtocols_names_nonempty : ∀ kv ∈ localProtocols, kv.2.name ≠ "" := by decide

set_option maxHeartbeats 1600000 in
theorem exEnvC6_fresh : freshProtocolsOf exEnvC6 = some exFreshC6 := by decide

set_option maxHeartbeats 1600000 in
theorem exLocalFisclend_key :
    normalizeProtocolName exLocalFisclend.2.name = "fisclendfinance" := by decide

set_option maxHeartbeats 1600000 in
theorem exFreshC6_no_fisclend : objGet exFreshC6 "fisclendfinance" = none := by decide

theorem exLocalFisclend_mem : exLocalFisclend ∈ localProtocols := by decide

/- From here on, keep the elaborator from unfolding the name-normalization
chain and the merge-loop body during unification (call-by-name reduction of
the fold over the 11-entry fallback dataset blows up); every fact that needs
them evaluated has been established above by kernel reduction. -/
attribute [irreducible] normalizeProtocolName
attribute [irreducible] mergeStep

set_option maxHeartbeats 1600000 in
/-- C6: on every successful refresh, a fallback entity whose normalized key is
absent from the freshly fetched set ends up in the merged cache tagged
`source := "local"` under its own name, and a fallback entry never overwrites
a freshly fetched record (keys present in `fresh` keep their fresh value). -/
theorem refresh_merges_local_fallback (env : ApiEnv) (c : ProtocolsCache)
    (fresh : List (String × ValidatedProtocol))
    (hf : freshProtocolsOf env = some fresh) :
    (refreshProtocolData env localProtocols c).2 = true ∧
    (∀ kv ∈ localProtocols, objGet fresh (normalizeProtocolName kv.2.name) = none →
      ∃ v, objGet (refreshProtocolData env localProtocols c).1.protocols
          (normalizeProtocolName kv.2.name) = some v ∧
        v.source = "local" ∧ v.name = kv.2.name) ∧
    (∀ k v, objGet fresh k = some v →
      objGet (refreshProtocolData env localProtocols c).1.protocols k = some v) := by
  have hshape := refresh_success_shape env localProtocols c fresh hf
  have hnd := localProtocols_keys_nodup
  have hnames := localProtocols_names_nonempty
  refine ⟨by rw [hshape], ?_, ?_⟩
  · intro kv hmem habs
    refine ⟨validateProtocolData (rawFromLocal kv.2 env.now) env.now, ?_, rfl, ?_⟩
    · rw [hshape]
      exact mergeFold_adds env.now localProtocols fresh kv hmem hnd habs
    · simp [validateProtocolData, rawFromLocal, jsOrStr, hnames kv hmem]
  · intro k v hk
    rw [hshape]
    exact mergeFold_preserves env.now localProtocols fresh k v hk

/-- C6 witness: with a provider that freshly fetches only Morpho, the merged
cache serves the fallback entity `Fisclend Finance` under its normalized key
tagged `source = "local"`. -/
theorem refresh_merges_local_fallback_witness :
    (refreshProtocolData exEnvC6 localProtocols exCache).2 = true ∧
    (∃ v, objGet (refreshProtocolData exEnvC6 localProtocols exCache).1.protocols
        "fisclendfinance" = some v ∧ v.source = "local" ∧ v.name = "Fisclend Finance") ∧
    (∀ v, objGet exFreshC6 "morpho" = some v →
      objGet (refreshProtocolData exEnvC6 localProtocols exCache).1.protocols "morpho" = some v) := by
  have h := refresh_merges_local_fallback exEnvC6 exCache exFreshC6 exEnvC6_fresh
  refine ⟨h.1, ?_, fun v hv => h.2.2 "morpho" v hv⟩
  have hx := h.2.1 exLocalFisclend exLocalFisclend_mem
    (by rw [exLocalFisclend_key]; exact exFreshC6_no_fisclend)
  rw [exLocalFisclend_key] at hx
  have hname : exLocalFisclend.2.name = "Fisclend Finance" := rfl
  rw [hname] at hx
  exact hx

/-! ## C3 -/

theorem hasInfix_iff : ∀ (s sub : List Char), hasInfix s sub = true ↔ sub <:+: s := by
  intro s
  induction s with
  | nil =>
    intro sub
    rw [hasInfix]
    by_cases h : sub.isPrefixOf ([] : List Char)
    · rw [if_pos h]
      simp only [true_iff]
      exact (List.isPrefixOf_iff_prefix.mp h).isInfix
    · rw [if_neg h]
      constructor
      · intro hfalse; cases hfalse
      · intro hinf
        rw [List.infix_nil] at hinf
        subst hinf
        simp at h
  | cons c t ih =>
    intro sub
    rw [hasInfix]
    by_cases h : sub.isPrefixOf (c :: t)
    · rw [if_pos h]
      simp only [true_iff]
      exact (List.isPrefixOf_iff_prefix.mp h).isInfix
    · rw [if_neg h]
      rw [ih sub, List.infix_cons_iff]
      constructor
      · exact Or.inr
      · rintro (hp | hi)
        · exact absurd (List.isPrefixOf_iff_prefix.mpr hp) h
        · exact hi

theorem strIncludes_of_infix {s sub : String} (h : sub.data <:+: s.data) :
    strIncludes s sub = true := by
  unfold strIncludes
  exact (hasInfix_iff s.data sub.data).mpr h

theorem mem_joinSep_infix (sep : String) :
    ∀ (l : List String) (x : String), x ∈ l → x.data <:+: (joinSep sep l).data := by
  intro l
  induction l with
  | nil => intro x hx; cases hx
  | cons a as ih =>
    intro x hx
    cases as with
    | nil =>
      rw [List.mem_singleton] at hx
      subst hx
      exact List.infix_rfl
    | cons b bs =>
      rcases List.mem_cons.mp hx with rfl | hx'
      · refine ⟨[], (sep ++ joinSep sep (b :: bs)).data, ?_⟩
        simp [joinSep]
      · refine (ih x hx').trans ⟨(a ++ sep).data, [], ?_⟩
        simp [joinSep]

/-- Every generated line occurs verbatim inside the joined comparison text. -/
theorem comparison_content_has_line (protocols : List String)
    (data : String → ComparisonData) (line : String)
    (hmem : line ∈ comparisonLines protocols data) :
    line.data <:+: (generateComparisonText protocols data).data :=
  mem_joinSep_infix "\n" (comparisonLines protocols data) line hmem

/-- A metrics row whose line starts with label `lab` makes the comparison
text contain `lab` as a substring. -/
theorem row_in_comparison (pcs : List String) (dataF : String → ComparisonData)
    (lab rest : String) (hmem : (lab ++ rest) ∈ comparisonLines pcs dataF) :
    strIncludes (generateComparisonText pcs dataF) lab = true := by
  apply strIncludes_of_infix
  refine List.IsInfix.trans ?_ (comparison_content_has_line pcs dataF _ hmem)
  exact ⟨[], rest.data, by simp⟩

/-- C3 (amended): a query with a comparison keyword mentioning at least two
known protocol names yields exactly one synthetic chunk, of category
`"Comparison"`, whose content contains the full metrics row for each of TVL,
24h Change and Users, the cells being the values the extractors produce from
each compared protocol's chunks; every such cell is either an extracted
capture or the extractor's fallback — `'Unknown'` for TVL, `'N/A'` for the
other metrics. With fewer than two resolvable protocols no synthetic chunk is
produced and normal ranking applies. -/
theorem comparison_query_synthesizes_single_chunk (docs : List DocumentChunk)
    (query : String) (limit : Nat) :
    (isComparisonQuery query docs = true →
      ∃ d, findRelevantDocuments docs query limit = [d] ∧
        d.category = some "Comparison" ∧
        strIncludes d.content ("| TVL | " ++ joinSep " | "
          ((extractProtocolsForComparison query docs).map fun p =>
            extractTVL (protocolDocsOf docs p)) ++ " |") = true ∧
        strIncludes d.content ("| 24h Change | " ++ joinSep " | "
          ((extractProtocolsForComparison query docs).map fun p =>
            extractMetric (protocolDocsOf docs p)
              ["1d Change", "24h Change", "Daily Change"]) ++ " |") = true ∧
        strIncludes d.content ("| Users | " ++ joinSep " | "
          ((extractProtocolsForComparison query docs).map fun p =>
            extractMetric (protocolDocsOf docs p) ["Users", "Unique Users"]) ++ " |") = true) ∧
    (∀ (pdocs : List DocumentChunk) (names : List String),
      ((pdocs.findSome? tvlDocExtract = none ∧ extractTVL pdocs = "Unknown") ∨
        ∃ cap, pdocs.findSome? tvlDocExtract = some cap ∧ extractTVL pdocs = String.mk cap) ∧
      ((pdocs.findSome? (metricDocExtract names) = none ∧ extractMetric pdocs names = "N/A") ∨
        ∃ cap, pdocs.findSome? (metricDocExtract names) = some cap ∧
          extractMetric pdocs names = String.mk cap)) ∧
    ((extractProtocolsForComparison query docs).length < 2 →
      isComparisonQuery query docs = false ∧
      findRelevantDocuments docs query limit = rankedResults docs query limit) := by
  refine ⟨?_, ?_, ?_⟩
  · intro hc
    have hlen : ¬ (extractProtocolsForComparison query docs).length < 2 := by
      have := (Bool.and_eq_true _ _).mp hc
      have h2 := of_decide_eq_true this.2
      omega
    set pcs := extractProtocolsForComparison query docs with hpcs
    set dataF := comparisonDataFor docs with hdataF
    refine ⟨{ content := generateComparisonText pcs dataF
              source := "protocol_comparison"
              protocol := some (joinSep "_vs_" pcs)
              category := some "Comparison"
              score := some 1 }, ?_, rfl, ?_, ?_, ?_⟩
    · have hcreate : createProtocolComparisonDocument query docs = some
          { content := generateComparisonText pcs dataF
            source := "protocol_comparison"
            protocol := some (joinSep "_vs_" pcs)
            category := some "Comparison"
            score := some 1 } := by
        unfold createProtocolComparisonDocument
        rw [if_neg hlen]
      unfold findRelevantDocuments
      rw [hc, hcreate]
      rfl
    · have hmem : ("| TVL | " ++ joinSep " | " (pcs.map fun p => (dataF p).tvl) ++ " |")
          ∈ comparisonLines pcs dataF := by
        unfold comparisonLines
        refine List.mem_append_right _ ?_
        simp
      exact strIncludes_of_infix (comparison_content_has_line pcs dataF _ hmem)
    · have hmem : ("| 24h Change | " ++
            joinSep " | " (pcs.map fun p => (dataF p).dailyChange) ++ " |")
          ∈ comparisonLines pcs dataF := by
        unfold comparisonLines
        refine List.mem_append_right _ ?_
        simp
      exact strIncludes_of_infix (comparison_content_has_line pcs dataF _ hmem)
    · have hmem : ("| Users | " ++ joinSep " | " (pcs.map fun p => (dataF p).userCount) ++ " |")
          ∈ comparisonLines pcs dataF := by
        unfold comparisonLines
        refine List.mem_append_right _ ?_
        simp
      exact strIncludes_of_infix (comparison_content_has_line pcs dataF _ hmem)
  · intro pdocs names
    constructor
    · rcases h : pdocs.findSome? tvlDocExtract with _ | cap
      · exact Or.inl ⟨rfl, by simp [extractTVL, h]⟩
      · exact Or.inr ⟨cap, rfl, by simp [extractTVL, h]⟩
    · rcases h : pdocs.findSome? (metricDocExtract names) with _ | cap
      · exact Or.inl ⟨rfl, by simp [extractMetric, h]⟩
      · exact Or.inr ⟨cap, rfl, by simp [extractMetric, h]⟩
  · intro hlt
    have hfalse : isComparisonQuery query docs = false := by
      unfold isComparisonQuery
      have : decide (2 ≤ (extractProtocolsForComparison query docs).length) = false :=
        decide_eq_false (by omega)
      rw [this, Bool.and_false]
    refine ⟨hfalse, ?_⟩
    unfold findRelevantDocuments
    rw [hfalse]
    simp

set_option maxHeartbeats 1600000 in
/-- C3 witness: `"compare Morpho and Uniswap"` over the concrete two-protocol
corpus returns exactly one `Comparison` chunk with the three full metric rows,
and a one-name comparison query falls through to normal ranking. -/
theorem comparison_query_synthesizes_single_chunk_witness :
    (∃ d, findRelevantDocuments exDocs "compare Morpho and Uniswap" 3 = [d] ∧
      d.category = some "Comparison" ∧
      strIncludes d.content ("| TVL | " ++ joinSep " | "
        ((extractProtocolsForComparison "compare Morpho and Uniswap" exDocs).map fun p =>
          extractTVL (protocolDocsOf exDocs p)) ++ " |") = true ∧
      strIncludes d.content ("| 24h Change | " ++ joinSep " | "
        ((extractProtocolsForComparison "compare Morpho and Uniswap" exDocs).map fun p =>
          extractMetric (protocolDocsOf exDocs p)
            ["1d Change", "24h Change", "Daily Change"]) ++ " |") = true ∧
      strIncludes d.content ("| Users | " ++ joinSep " | "
        ((extractProtocolsForComparison "compare Morpho and Uniswap" exDocs).map fun p =>
          extractMetric (protocolDocsOf exDocs p) ["Users", "Unique Users"]) ++ " |") = true) ∧
    (isComparisonQuery "compare Morpho" exDocs = false ∧
      findRelevantDocuments exDocs "compare Morpho" 3 = rankedResults exDocs "compare Morpho" 3) :=
  ⟨(comparison_query_synthesizes_single_chunk exDocs "compare Morpho and Uniswap" 3).1 (by decide),
   (comparison_query_synthesizes_single_chunk exDocs "compare Morpho" 3).2.2 (by decide)⟩

set_option maxHeartbeats 1600000 in
/-- C3 counterexample: comparing two protocols whose chunks contain no
extractable TVL text produces the synthetic chunk whose TVL row reads
`| TVL | Unknown | Unknown |` — nothing was extracted and the fallback is
`'Unknown'`, not `'N/A'`, so the TVL cells are neither an extracted value nor
`"N/A"` as the claim states. -/
theorem comparison_tvl_cell_unknown_cex :
    isComparisonQuery "compare Alpaca and Bobcat" exDocsNoTvl = true ∧
    findRelevantDocuments exDocsNoTvl "compare Alpaca and Bobcat" 3 = [exCompChunkNoTvl] ∧
    exCompChunkNoTvl.category = some "Comparison" ∧
    (protocolDocsOf exDocsNoTvl "Alpaca").findSome? tvlDocExtract = none ∧
    extractTVL (protocolDocsOf exDocsNoTvl "Alpaca") = "Unknown" ∧
    extractTVL (protocolDocsOf exDocsNoTvl "Bobcat") = "Unknown" ∧
    strIncludes exCompChunkNoTvl.content "| TVL | Unknown | Unknown |" = true ∧
    ("Unknown" : String) ≠ "N/A" := by
  decide

/-! ## C9 -/

theorem hh_append_ne_empty (s : String) : "## " ++ s ≠ "" := by
  intro h
  have hd := congrArg String.data h
  simp at hd

/-- C9 (amended): every chunk produced by the markdown/text ingestion branch
has non-empty content, provided the file itself is non-empty and, for the
section-split overview document, the text before the first `## ` is either
empty or contains a non-whitespace character. (An empty markdown file, or an
overview whose leading text is all whitespace, does produce an empty chunk.) -/
theorem ingested_chunks_nonempty (file content : String)
    (h1 : content ≠ "")
    (h2 : file = "worldchain_defi.md" → introOK content = true) :
    (processTextFile file content).all (fun d => !(d.content == "")) = true := by
  by_cases hf : file = "worldchain_defi.md"
  · subst hf
    have hintro := h2 rfl
    unfold processTextFile
    rw [if_pos rfl]
    unfold introOK at hintro
    rcases hs : splitSections content with _ | ⟨s0, rest⟩
    · simp
    · rw [hs] at hintro
      rw [List.all_append]
      refine (Bool.and_eq_true _ _).mpr ⟨?_, ?_⟩
      · by_cases h0 : s0 = ""
        · rw [if_neg (by simp [h0])]
          rfl
        · rw [if_pos h0]
          have : ¬ jsTrim s0 = "" := by
            rcases (Bool.or_eq_true _ _).mp hintro with hx | hx
            · exact absurd (by simpa using hx) h0
            · simpa using hx
          simp [this]
      · rw [List.all_eq_true]
        intro d hd
        rcases List.mem_map.mp hd with ⟨sec, _, rfl⟩
        simp [sectionChunk, hh_append_ne_empty]
  · unfold processTextFile
    rw [if_neg hf]
    simp [h1]

/-- C9 witness: a markdown overview file with a non-blank introduction and a
section produces only non-empty chunks. -/
theorem ingested_chunks_nonempty_witness :
    (processTextFile "worldchain_defi.md" "intro ## Alpha\ntext").all
      (fun d => !(d.content == "")) = true :=
  ingested_chunks_nonempty "worldchain_defi.md" "intro ## Alpha\ntext" (by decide)
    (fun _ => by decide)

/-- C9 counterexample: an empty markdown file is accepted by the loader and
ingested as a single chunk whose content is empty, so not every ingested chunk
has non-empty content. -/
theorem empty_markdown_empty_chunk_cex :
    processTextFile "notes.md" "" = [{ content := "", source := "notes.md" }] ∧
    (processTextFile "notes.md" "").all (fun d => !(d.content == "")) = false := by
  exact ⟨rfl, rfl⟩

/-! ## C1 -/

theorem docLE_trans : ∀ (a b c : DocumentChunk), docLE a b → docLE b c → docLE a c := by
  intro a b c hab hbc
  simp only [docLE, decide_eq_true_eq] at *
  exact le_trans hbc hab

theorem docLE_total : ∀ (a b : DocumentChunk), docLE a b || docLE b a := by
  intro a b
  simp only [docLE, Bool.or_eq_true, decide_eq_true_eq]
  exact le_total _ _

/-- Stability of the ranking sort: for each score value, sorting does not
reorder the chunks carrying that score. -/
theorem mergeSort_filter_score (l : List DocumentChunk) (s : ℚ) :
    (l.mergeSort docLE).filter (scoreIs s) = l.filter (scoreIs s) := by
  have hpair : (l.filter (scoreIs s)).Pairwise (fun a b => docLE a b) := by
    apply List.pairwise_of_forall_mem_list
    intro a ha b hb
    have ha' : jsScore a = s := by
      simpa [scoreIs] using List.of_mem_filter ha
    have hb' : jsScore b = s := by
      simpa [scoreIs] using List.of_mem_filter hb
    simp [docLE, ha', hb']
  have hsub : l.filter (scoreIs s) <+ l.mergeSort docLE :=
    List.sublist_mergeSort docLE_trans docLE_total hpair (List.filter_sublist l)
  have hid : (l.filter (scoreIs s)).filter (scoreIs s) = l.filter (scoreIs s) :=
    List.filter_eq_self.mpr fun a ha => List.of_mem_filter ha
  have hsub2 : l.filter (scoreIs s) <+ (l.mergeSort docLE).filter (scoreIs s) := by
    have hstep := hsub.filter (scoreIs s)
    rwa [hid] at hstep
  have hperm : (l.mergeSort docLE).filter (scoreIs s) ~ l.filter (scoreIs s) :=
    (List.mergeSort_perm l docLE).filter (scoreIs s)
  exact (hsub2.eq_of_length hperm.length_eq.symm).symm

/-- C1 (amended): for every query and every limit ≥ 1, `findRelevantDocuments`
returns at most `limit` chunks, sorted by descending relevance score; the
candidate set preserves corpus insertion order, and on the normal ranking path
(non-comparison queries) ties are broken stably: for each score, the returned
chunks with that score are a prefix of the scored candidates with that score.
(The limit ≥ 1 restriction is forced: with limit 0 a comparison query still
returns its one synthetic chunk.) -/
theorem findRelevantDocuments_ranking (docs : List DocumentChunk) (query : String)
    (limit : Nat) (hlim : 1 ≤ limit) :
    (findRelevantDocuments docs query limit).length ≤ limit ∧
    (findRelevantDocuments docs query limit).Pairwise
      (fun a b => jsScore b ≤ jsScore a) ∧
    candidateDocuments docs query <+ docs ∧
    (isComparisonQuery query docs = false →
      ∀ s : ℚ, (findRelevantDocuments docs query limit).filter (scoreIs s) <+:
        (scoredCandidates docs query).filter (scoreIs s)) := by
  have hcand : candidateDocuments docs query <+ docs := by
    unfold candidateDocuments
    by_cases hw : isWorldchainQuery query
    · rw [if_pos hw]
      cases hpn : extractProtocolName docs query
      · cases hct : extractCategory query
        · exact List.filter_sublist docs
        · exact List.filter_sublist docs
      · exact List.filter_sublist docs
    · rw [if_neg hw]
  have hrank_len : (rankedResults docs query limit).length ≤ limit := by
    unfold rankedResults
    rw [List.length_take]
    exact min_le_left _ _
  have hrank_sorted : (rankedResults docs query limit).Pairwise
      (fun a b => jsScore b ≤ jsScore a) := by
    have hms := List.sorted_mergeSort docLE_trans docLE_total (scoredCandidates docs query)
    have hms' : ((scoredCandidates docs query).mergeSort docLE).Pairwise
        (fun a b => jsScore b ≤ jsScore a) := by
      refine hms.imp ?_
      intro a b h
      simpa [docLE] using h
    exact hms'.sublist (List.take_sublist _ _)
  have hstab : ∀ s : ℚ, (rankedResults docs query limit).filter (scoreIs s) <+:
      (scoredCandidates docs query).filter (scoreIs s) := by
    intro s
    unfold rankedResults
    have hpre := (List.take_prefix limit
      ((scoredCandidates docs query).mergeSort docLE)).filter (scoreIs s)
    rwa [mergeSort_filter_score] at hpre
  by_cases hc : isComparisonQuery query docs
  · rcases hcd : createProtocolComparisonDocument query docs with _ | d
    · have hfrd : findRelevantDocuments docs query limit = rankedResults docs query limit := by
        unfold findRelevantDocuments
        rw [hc, hcd]
        rfl
      rw [hfrd]
      refine ⟨hrank_len, hrank_sorted, hcand, ?_⟩
      intro hfalse
      rw [hfalse] at hc
      cases hc
    · have hfrd : findRelevantDocuments docs query limit = [d] := by
        unfold findRelevantDocuments
        rw [hc, hcd]
        rfl
      rw [hfrd]
      refine ⟨by simpa using hlim, List.pairwise_singleton _ _, hcand, ?_⟩
      intro hfalse
      rw [hfalse] at hc
      cases hc
  · have hc' : isComparisonQuery query docs = false := by simpa using hc
    have hfrd : findRelevantDocuments docs query limit = rankedResults docs query limit := by
      unfold findRelevantDocuments
      rw [hc']
      simp
    rw [hfrd]
    exact ⟨hrank_len, hrank_sorted, hcand, fun _ => hstab⟩

/-- C1 witness: a plain query over the concrete corpus, limit 2. -/
theorem findRelevantDocuments_ranking_witness :
    (findRelevantDocuments exDocs "morpho" 2).length ≤ 2 ∧
    (findRelevantDocuments exDocs "morpho" 2).Pairwise
      (fun a b => jsScore b ≤ jsScore a) ∧
    candidateDocuments exDocs "morpho" <+ exDocs ∧
    ((findRelevantDocuments exDocs "morpho" 2).filter (scoreIs 1) <+:
      (scoredCandidates exDocs "morpho").filter (scoreIs 1)) := by
  have h := findRelevantDocuments_ranking exDocs "morpho" 2 (by decide)
  exact ⟨h.1, h.2.1, h.2.2.1, h.2.2.2 (by decide) 1⟩

set_option maxHeartbeats 1600000 in
/-- C1 counterexample: with limit 0 — a non-negative limit — a comparison
query still returns its one synthetic chunk, so the claim's "never more than
`limit` chunks" fails at limit 0. -/
theorem findRelevantDocuments_zero_limit_cex :
    ¬ ((findRelevantDocuments exDocs "compare Morpho and Uniswap" 0).length ≤ 0) := by
  decide

end WDB
